import Mathlib

/-!
Verification of the LLM provider abstraction and response-normalization layer
of the ST22 dump-analysis gateway (`app/llm_client.py`), together with the
persistence contract of its analysis store.

The Python code is shallowly embedded:
- JSON values are the inductive `Json`; the standard library's `json.loads`
  and `json.dumps` are modelled by the executable `jsonLoadsL` / `dumps`
  (restricted to integer numerals and the basic escape sequences — the
  fragments exercised by the claims; `json.loads` rejecting raw control
  characters inside string literals is modelled faithfully).
- Exceptions are `Except`: every raise site of `llm_client.py` produces the
  single class `LLMError` (the only exception class the module defines),
  embedded as `PyError.llmError msg`; the exact Python runtime message texts
  (`str(e)` of an IndexError, AttributeError, ...) are modelled by short
  placeholder strings.
- Network effects (`requests.post`) are an oracle `Network` giving each call
  site's outcome, and each function returns the list of network calls it
  performed (`List NetCall`) alongside its result, so "fails before any
  network call" is "the trace is `[]`".
- `app/storage.py` is imported by `app/main.py` but absent from the staged
  sources; the store is modelled from the spec (each such definition's doc
  comment says so).
-/

/-- A decoded JSON value (what Python's `json.loads` returns): objects are
association lists in parse order, numbers are restricted to integers. -/
inductive Json where
  | null
  | bool (b : Bool)
  | num (n : Int)
  | str (s : String)
  | arr (elems : List Json)
  | obj (fields : List (String × Json))

/-- The double-quote character. -/
def dquote : Char := Char.ofNat 34

/-- The backslash character. -/
def bslash : Char := Char.ofNat 92

/-- The opening-brace character. -/
def lbrace : Char := Char.ofNat 123

/-- The closing-brace character. -/
def rbrace : Char := Char.ofNat 125

/-- The backtick character. -/
def btick : Char := Char.ofNat 96

/-- JSON whitespace, skipped between tokens by `json.loads`. -/
def isWs (c : Char) : Bool := c = ' ' || c = '\t' || c = '\n' || c = '\r'

/-- Value of an escape character inside a JSON string literal
(`\uXXXX` is outside the modelled fragment). -/
def escChar (c : Char) : Option Char :=
  if c = dquote then some dquote
  else if c = bslash then some bslash
  else if c = '/' then some '/'
  else if c = 'n' then some '\n'
  else if c = 't' then some '\t'
  else if c = 'r' then some '\r'
  else if c = 'b' then some (Char.ofNat 8)
  else if c = 'f' then some (Char.ofNat 12)
  else none

/-- Characters of a JSON string literal after the opening quote, and the rest
of the input. Raw control characters (below 0x20, e.g. a newline) are
rejected, as Python's strict `json.loads` rejects them. -/
def strChars : List Char → Option (List Char × List Char)
  | [] => none
  | c :: rest =>
    if c = dquote then some ([], rest)
    else if c = bslash then
      match rest with
      | e :: rest2 =>
        match escChar e with
        | some ec =>
          match strChars rest2 with
          | some (s, r) => some (ec :: s, r)
          | none => none
        | none => none
      | [] => none
    else if c.toNat < 32 then none
    else
      match strChars rest with
      | some (s, r) => some (c :: s, r)
      | none => none

/-- Parser modes of the JSON recursive-descent parser: a value, the fields of
an object after its opening brace, the items of an array after its bracket. -/
inductive PMode where
  | val
  | fields
  | items

/-- Result of one `parseStep` call, tagged by mode. -/
inductive PRes where
  | v (j : Json)
  | fs (l : List (String × Json))
  | its (l : List Json)

/-- Numeric value of a digit list. -/
def digitsVal (ds : List Char) : Nat := ds.foldl (fun acc c => 10 * acc + (c.toNat - 48)) 0

/-- An integer numeral (JSON grammar: no leading zeros); fails when a
fractional or exponent part follows, which is outside the modelled fragment. -/
def parseNumTail (cs : List Char) : Option (Nat × List Char) :=
  let ds := cs.takeWhile Char.isDigit
  let rest := cs.dropWhile Char.isDigit
  if ds = [] then none
  else
    match ds with
    | d0 :: _ :: _ => if d0 = '0' then none else
        match rest with
        | c :: _ => if c = '.' || c = 'e' || c = 'E' then none else some (digitsVal ds, rest)
        | [] => some (digitsVal ds, rest)
    | _ =>
        match rest with
        | c :: _ => if c = '.' || c = 'e' || c = 'E' then none else some (digitsVal ds, rest)
        | [] => some (digitsVal ds, rest)

/-- One fuelled step of the JSON parser: parses a value, object fields, or
array items at the front of the input, returning the parse and the rest. -/
def parseStep : Nat → PMode → List Char → Option (PRes × List Char)
  | 0, _, _ => none
  | fuel+1, .val, cs =>
    match cs.dropWhile isWs with
    | [] => none
    | c :: rest =>
      if c = lbrace then
        match rest.dropWhile isWs with
        | d :: r2 =>
          if d = rbrace then some (.v (Json.obj []), r2)
          else
            match parseStep fuel .fields (d :: r2) with
            | some (.fs l, r3) => some (.v (Json.obj l), r3)
            | _ => none
        | [] => none
      else if c = '[' then
        match rest.dropWhile isWs with
        | d :: r2 =>
          if d = ']' then some (.v (Json.arr []), r2)
          else
            match parseStep fuel .items (d :: r2) with
            | some (.its l, r3) => some (.v (Json.arr l), r3)
            | _ => none
        | [] => none
      else if c = dquote then
        match strChars rest with
        | some (s, r) => some (.v (Json.str (String.mk s)), r)
        | none => none
      else if c = 't' then
        match rest with
        | 'r' :: 'u' :: 'e' :: r => some (.v (Json.bool true), r)
        | _ => none
      else if c = 'f' then
        match rest with
        | 'a' :: 'l' :: 's' :: 'e' :: r => some (.v (Json.bool false), r)
        | _ => none
      else if c = 'n' then
        match rest with
        | 'u' :: 'l' :: 'l' :: r => some (.v Json.null, r)
        | _ => none
      else if c = '-' then
        match parseNumTail rest with
        | some (n, r) => some (.v (Json.num (-(n : Int))), r)
        | none => none
      else if c.isDigit then
        match parseNumTail (c :: rest) with
        | some (n, r) => some (.v (Json.num (n : Int)), r)
        | none => none
      else none
  | fuel+1, .fields, cs =>
    match cs.dropWhile isWs with
    | c :: rest =>
      if c = dquote then
        match strChars rest with
        | some (k, r1) =>
          match r1.dropWhile isWs with
          | ':' :: r2 =>
            match parseStep fuel .val r2 with
            | some (.v v, r3) =>
              match r3.dropWhile isWs with
              | d :: r4 =>
                if d = ',' then
                  match parseStep fuel .fields r4 with
                  | some (.fs l, r5) => some (.fs ((String.mk k, v) :: l), r5)
                  | _ => none
                else if d = rbrace then some (.fs [(String.mk k, v)], r4)
                else none
              | [] => none
            | _ => none
          | _ => none
        | none => none
      else none
    | [] => none
  | fuel+1, .items, cs =>
    match parseStep fuel .val cs with
    | some (.v v, r1) =>
      match r1.dropWhile isWs with
      | d :: r2 =>
        if d = ',' then
          match parseStep fuel .items r2 with
          | some (.its l, r3) => some (.its (v :: l), r3)
          | _ => none
        else if d = ']' then some (.its [v], r2)
        else none
      | [] => none
    | _ => none

/-- Python's `json.loads` on a character list: a single JSON document with
optional surrounding whitespace; `none` models the raised `JSONDecodeError`
(always caught by the code under verification). -/
def jsonLoadsL (cs : List Char) : Option Json :=
  match parseStep (2 * cs.length + 2) .val cs with
  | some (.v v, rest) => if rest.dropWhile isWs = [] then some v else none
  | _ => none

/-- Python's `json.loads` on a string. -/
def jsonLoads (s : String) : Option Json := jsonLoadsL s.data

/-- JSON string-literal escaping used by `dumps` (the fragment of Python's
`json.dumps` escaping the claims exercise). -/
def escapeChars : List Char → List Char
  | [] => []
  | c :: rest =>
    if c = dquote then bslash :: dquote :: escapeChars rest
    else if c = bslash then bslash :: bslash :: escapeChars rest
    else if c = '\n' then bslash :: 'n' :: escapeChars rest
    else if c = '\t' then bslash :: 't' :: escapeChars rest
    else if c = '\r' then bslash :: 'r' :: escapeChars rest
    else c :: escapeChars rest

/-- A serialized JSON string literal. -/
def dumpStr (s : String) : String := "\"" ++ String.mk (escapeChars s.data) ++ "\""

mutual

/-- Python's `json.dumps` with default separators (`", "` and `": "`). -/
def dumps : Json → String
  | .null => "null"
  | .bool true => "true"
  | .bool false => "false"
  | .num n => toString n
  | .str s => dumpStr s
  | .arr xs => "[" ++ dumpsList xs ++ "]"
  | .obj fs => "\x7b" ++ dumpsFields fs ++ "\x7d"

/-- Array items of `dumps`, comma-separated. -/
def dumpsList : List Json → String
  | [] => ""
  | [x] => dumps x
  | x :: y :: xs => dumps x ++ ", " ++ dumpsList (y :: xs)

/-- Object fields of `dumps`, comma-separated. -/
def dumpsFields : List (String × Json) → String
  | [] => ""
  | [kv] => dumpStr kv.1 ++ ": " ++ dumps kv.2
  | kv :: kv2 :: fs => dumpStr kv.1 ++ ": " ++ dumps kv.2 ++ ", " ++ dumpsFields (kv2 :: fs)

end

/-- Last-wins association-list lookup: Python `dict` lookup on the decoded
object (duplicate keys in a JSON text leave the last value). -/
def lookupF (k : String) (fields : List (String × Json)) : Option Json :=
  fields.foldl (fun acc kv => if kv.1 = k then some kv.2 else acc) none

/-- Python's `value.get(key)` on a decoded JSON value: `none` both for a
missing key and for a receiver that is not a dict (where Python raises). -/
def jget (j : Json) (k : String) : Option Json :=
  match j with
  | .obj fields => lookupF k fields
  | _ => none

/-- Python truthiness of a decoded JSON value (`None`, `False`, `0`, `""`,
`[]`, and the empty dict are falsy). -/
def jsonTruthy : Json → Bool
  | .null => false
  | .bool b => b
  | .num n => !(n = 0)
  | .str s => !(s = "")
  | .arr xs => !xs.isEmpty
  | .obj fs => !fs.isEmpty

/-- Truthiness of a `dict.get` result (`none` is Python `None`, falsy). -/
def optTruthy : Option Json → Bool
  | none => false
  | some v => jsonTruthy v

/-- Python's `a or b` on a `dict.get` result: the value when truthy, else `b`. -/
def orTruthy (a : Option Json) (b : Json) : Json :=
  match a with
  | some v => if jsonTruthy v then v else b
  | none => b

/-- Whether a JSON value is an object (a mapping). -/
def Json.isObj : Json → Bool
  | .obj _ => true
  | _ => false

/-- Python `str.strip()` whitespace (the ASCII whitespace characters). -/
def isPySpace (c : Char) : Bool :=
  c = ' ' || c = '\t' || c = '\n' || c = '\r' || c = Char.ofNat 11 || c = Char.ofNat 12

/-- Python `text.strip()`. -/
def pyStrip (cs : List Char) : List Char :=
  ((cs.dropWhile isPySpace).reverse.dropWhile isPySpace).reverse

/-- A match of the opening-fence regex `(three backticks)(?:json)?\n` (the
`json` tag case-insensitive, as `re.IGNORECASE` makes it) at the front of the
input: the rest of the input after the match. -/
def fenceTail (cs : List Char) : Option (List Char) :=
  match cs with
  | a :: b :: c :: rest =>
    if a = btick && b = btick && c = btick then
      match rest with
      | '\n' :: r => some r
      | d1 :: d2 :: d3 :: d4 :: '\n' :: r =>
        if d1.toLower = 'j' && d2.toLower = 's' && d3.toLower = 'o' && d4.toLower = 'n'
        then some r else none
      | _ => none
    else none
  | _ => none

/-- Fuelled scan behind `removeFences`: at each position remove a match of
the opening-fence regex or advance one character, as `re.sub` replaces every
non-overlapping match left to right. -/
def removeFencesF : Nat → List Char → List Char
  | 0, cs => cs
  | _+1, [] => []
  | fuel+1, c :: rest =>
    match fenceTail (c :: rest) with
    | some r => removeFencesF fuel r
    | none => c :: removeFencesF fuel rest

/-- `re.sub(r"(fence)(?:json)?\n", "", s, flags=re.IGNORECASE)` of the code:
every occurrence of an opening fence marker is removed, anywhere in the text. -/
def removeFences (cs : List Char) : List Char := removeFencesF cs.length cs

/-- `re.sub(r"\n(fence)$", "", s)` of the code: a closing fence at the end of
the text (Python's `$` also matches just before one final newline) is
removed. -/
def removeClosing (cs : List Char) : List Char :=
  match cs.reverse with
  | a :: b :: c :: d :: r =>
    if a = btick && b = btick && c = btick && d = '\n' then r.reverse
    else
      match r with
      | e :: r2 =>
        if a = '\n' && b = btick && c = btick && d = btick && e = '\n'
        then ('\n' :: r2).reverse else cs
      | [] => cs
  | _ => cs

/-- Python `s.find(c)`: index of the first occurrence (`none` for `-1`). -/
def firstIdx (c : Char) : List Char → Option Nat
  | [] => none
  | x :: xs => if x = c then some 0 else (firstIdx c xs).map Nat.succ

/-- Python `s.rfind(c)`: index of the last occurrence (`none` for `-1`). -/
def lastIdx (c : Char) (cs : List Char) : Option Nat :=
  (firstIdx c cs.reverse).map (fun i => cs.length - 1 - i)

/-- The text after the code's stripping steps: `strip()`, the opening-fence
`re.sub`, the closing-fence `re.sub`, in that order. -/
def strippedText (text : String) : List Char :=
  removeClosing (removeFences (pyStrip text.data))

/-- The code's first parse attempt: `json.loads` of the substring from the
first opening brace through the last closing brace, provided both exist in
that order; `none` when the attempt is skipped or the parse fails. -/
def braceAttempt (s : List Char) : Option Json :=
  match firstIdx lbrace s, lastIdx rbrace s with
  | some first, some last =>
    if first < last then jsonLoadsL ((s.drop first).take (last + 1 - first)) else none
  | _, _ => none

/-- `LLMClient._try_parse_json` (`app/llm_client.py` lines 141-160) on a
string argument: empty text gives `None`; otherwise the text is stripped,
every opening-fence marker and a trailing closing fence are removed, the
first-brace-to-last-brace substring is tried as JSON, then the whole stripped
text; both `json.loads` exceptions are caught, so the function never raises
(it is total) and returns `None` when both attempts fail. -/
def try_parse_json (text : String) : Option Json :=
  if text = "" then none
  else
    let s := strippedText text
    match firstIdx lbrace s, lastIdx rbrace s with
    | some first, some last =>
      if first < last then
        match jsonLoadsL ((s.drop first).take (last + 1 - first)) with
        | some v => some v
        | none => jsonLoadsL s
      else jsonLoadsL s
    | _, _ => jsonLoadsL s

/-- The normalizer algorithm restated as the spec's ordered chain of fallible
attempts, with the stripping step as the code actually performs it (every
opening-fence occurrence removed, one trailing closing fence removed): the
amended form of claim C1. -/
def amendedParse (text : String) : Option Json :=
  if text = "" then none
  else
    match braceAttempt (strippedText text) with
    | some v => some v
    | none => jsonLoadsL (strippedText text)

/-- Step (2) of the spec's normalizer algorithm read literally — "strip any
surrounding fenced-code markers (opening fence with optional language tag,
closing fence)": an opening fence with its language tag is removed only at
the very start, a closing fence only at the very end. -/
def stripSurrounding (cs : List Char) : List Char :=
  let cs1 :=
    match cs with
    | a :: b :: c :: rest =>
      if a = btick && b = btick && c = btick then
        match rest.dropWhile Char.isAlpha with
        | '\n' :: r => r
        | _ => cs
      else cs
    | _ => cs
  match cs1.reverse with
  | a :: b :: c :: d :: r =>
    if a = btick && b = btick && c = btick && d = '\n' then r.reverse else cs1
  | _ => cs1

/-- The spec's ordered normalizer algorithm read literally, for comparison
with the implementation `try_parse_json`: empty text, strip surrounding fence
markers only, substring attempt, whole-text attempt, else null. -/
def specParse (text : String) : Option Json :=
  if text = "" then none
  else
    let s := stripSurrounding (pyStrip text.data)
    match braceAttempt s with
    | some v => some v
    | none => jsonLoadsL s

/-- `_try_parse_json` applied to an arbitrary Python value, as the provider
paths do (`text` need not be a string): a falsy argument returns `None`
without touching it; a truthy non-string raises `AttributeError` at
`text.strip()`, which the provider's handler turns into `LLMError`. -/
def try_parse_json_py (text : Json) : Except String (Option Json) :=
  if jsonTruthy text then
    match text with
    | .str s => .ok (try_parse_json s)
    | _ => .error "AttributeError: strip"
  else .ok none

/-- The provider configuration `LLMClient.__init__` reads from the
environment: absent variables are `none`; `provider` is already lowercased
(the code lowercases it at construction). -/
structure Config where
  provider : String
  token_url : Option String
  client_id : Option String
  client_secret : Option String
  inference_url : Option String
  model_name : Option String
  local_url : Option String
  max_tokens : Nat
  temperature : Int

/-- Python truthiness of an optional environment string (both an unset
variable and the empty string are falsy, as in `all([...])`). -/
def truthyS : Option String → Bool
  | none => false
  | some s => !(s = "")

/-- The conjunction `all([token_url, client_id, client_secret,
inference_url])` that `_call_sap_aicore` checks before any network call
(`model_name` is not part of it). -/
def remoteConfigured (cfg : Config) : Bool :=
  truthyS cfg.token_url && truthyS cfg.client_id && truthyS cfg.client_secret
    && truthyS cfg.inference_url

/-- Outcome of one `requests.post`: a success status with a decoded JSON
body, or a raised exception (network error, timeout, `raise_for_status`,
or a body `.json()` cannot decode) with its message. -/
inductive HttpOutcome where
  | ok (body : Json)
  | fail (msg : String)

/-- The network oracle: the outcome each of the three call sites would
observe if it posts. -/
structure Network where
  tokenResp : HttpOutcome
  inferResp : HttpOutcome
  localResp : HttpOutcome

/-- One performed network call, by call site, with the request data the code
sends that the claims mention. -/
inductive NetCall where
  | tokenPost (url : Option String) (client_id : Option String) (client_secret : Option String)
  | inferPost (url : Option String) (model : Option String) (prompt : String)
  | localPost (url : Option String) (prompt : String)

/-- An exception value raised by `llm_client.py`. The module defines exactly
one exception class, `LLMError(Exception)` (lines 12-13), and every raise
site uses it; the constructor's argument is the message. -/
inductive PyError where
  | llmError (msg : String)

/-- The Python class name of a raised exception — what a caller catching by
type can distinguish. -/
def classOf : PyError → String
  | .llmError _ => "LLMError"

/-- The dict `analyze` returns on success: exactly the keys `text`, `json`
and `raw` (the code builds the literal dict at lines 114 and 133). `text` is
whatever Python value the provider path extracted (not necessarily a
string), `json` the normalizer's result, `raw` the decoded response body. -/
structure LLMResult where
  text : Json
  json : Option Json
  raw : Json

/-- Whether a call raised. -/
def isErr : Except PyError LLMResult → Bool
  | .error _ => true
  | .ok _ => false

/-- `LLMClient._get_access_token`: posts to the token endpoint with the
client credentials; any failure of the post, the status check, the body
decode or the `["access_token"]` lookup is caught and re-raised as
`LLMError("SAP AI Core authentication failed")`. Returns the token value and
the one call it performed. -/
def get_access_token (cfg : Config) (net : Network) :
    Except PyError Json × List NetCall :=
  (match net.tokenResp with
   | .ok body =>
     match jget body "access_token" with
     | some v => .ok v
     | none => .error (.llmError "SAP AI Core authentication failed")
   | .fail _ => .error (.llmError "SAP AI Core authentication failed"),
   [NetCall.tokenPost cfg.token_url cfg.client_id cfg.client_secret])

/-- Lines 107-111: `raw.get("choices", [(empty dict)])[0].get("message",
(empty dict)).get("content", "")` — the extracted content value, or the
message of the exception the expression raises (an empty `choices` list
raises `IndexError`, a non-dict where `.get` is called raises
`AttributeError`; the texts are modelled). -/
def extract_text (raw : Json) : Except String Json :=
  match raw with
  | .obj fields =>
    match (lookupF "choices" fields).getD (Json.arr [Json.obj []]) with
    | .arr [] => .error "list index out of range"
    | .arr (c :: _) =>
      match c with
      | .obj cf =>
        match (lookupF "message" cf).getD (Json.obj []) with
        | .obj mf => .ok ((lookupF "content" mf).getD (Json.str ""))
        | _ => .error "AttributeError: get"
      | _ => .error "AttributeError: get"
    | _ => .error "TypeError: not indexable"
  | _ => .error "AttributeError: get"

/-- `LLMClient._call_sap_aicore`: fail fast with
`LLMError("SAP AI Core configuration missing")` when any of token URL,
client id, client secret, inference URL is unset or empty (no network call);
then one token exchange; then one inference post; the response's content is
extracted and normalized; any exception inside the try block is re-raised as
`LLMError(str(e))`. -/
def call_sap_aicore (cfg : Config) (net : Network) (prompt : String) :
    Except PyError LLMResult × List NetCall :=
  if !remoteConfigured cfg then
    (.error (.llmError "SAP AI Core configuration missing"), [])
  else
    match get_access_token cfg net with
    | (.error e, tr) => (.error e, tr)
    | (.ok _, tr) =>
      let tr2 := tr ++ [NetCall.inferPost cfg.inference_url cfg.model_name prompt]
      match net.inferResp with
      | .fail m => (.error (.llmError m), tr2)
      | .ok raw =>
        match extract_text raw with
        | .error m => (.error (.llmError m), tr2)
        | .ok text =>
          match try_parse_json_py text with
          | .error m => (.error (.llmError m), tr2)
          | .ok parsed => (.ok { text := text, json := parsed, raw := raw }, tr2)

/-- Line 131: `j.get("result") or j.get("text") or j.get("output") or
json.dumps(j)` — the first truthy candidate field, else the serialized body;
raises (`AttributeError`) when the body is not a dict. -/
def local_text (j : Json) : Except String Json :=
  match j with
  | .obj _ =>
    .ok (orTruthy (jget j "result")
          (orTruthy (jget j "text")
            (orTruthy (jget j "output") (Json.str (dumps j)))))
  | _ => .error "AttributeError: get"

/-- `LLMClient._call_local`: fail fast with `LLMError("LOCAL_LLM_URL not
set")` when the local URL is unset or empty (no network call); then one post
with the prompt; the response text is chosen by `local_text` and normalized;
any exception inside the try block is re-raised as `LLMError(str(e))`. -/
def call_local (cfg : Config) (net : Network) (prompt : String) :
    Except PyError LLMResult × List NetCall :=
  if !truthyS cfg.local_url then
    (.error (.llmError "LOCAL_LLM_URL not set"), [])
  else
    let tr := [NetCall.localPost cfg.local_url prompt]
    match net.localResp with
    | .fail m => (.error (.llmError m), tr)
    | .ok j =>
      match local_text j with
      | .error m => (.error (.llmError m), tr)
      | .ok text =>
        match try_parse_json_py text with
        | .error m => (.error (.llmError m), tr)
        | .ok parsed => (.ok { text := text, json := parsed, raw := j }, tr)

/-- `LLMClient.analyze`: dispatch on the configured provider kind; an
unrecognized kind raises `LLMError` at the first call. -/
def analyze (cfg : Config) (net : Network) (prompt : String) :
    Except PyError LLMResult × List NetCall :=
  if cfg.provider = "sap_aicore" then call_sap_aicore cfg net prompt
  else if cfg.provider = "local" ∨ cfg.provider = "ollama" ∨ cfg.provider = "vllm" then
    call_local cfg net prompt
  else (.error (.llmError ("Unknown LLM_PROVIDER: " ++ cfg.provider)), [])

/-- Modelled from the spec: the persisted `AnalysisRecord` of §3 —
`app/storage.py` (the `Storage` class `app/main.py` imports) is not among
the staged sources. `record_id` is the unique key, `created_at` the write
time. -/
structure AnalysisRecord where
  record_id : String
  input_payload : Json
  analysis_result : LLMResult
  created_at : Nat

/-- Modelled from the spec: one `save` call's arguments (`record_id`,
`input_payload`, the analysis result), for stating properties of save
sequences. -/
structure SaveOp where
  record_id : String
  input_payload : Json
  analysis_result : LLMResult

/-- Modelled from the spec: `save(record_id, input_payload, result)` of
§4.3 — "writes or replaces the record for record_id; sets created_at to the
write time"; the store is kept most-recent-first, and any previous record
with the same id is removed rather than kept (latest-wins upsert). -/
def save_analysis (st : List AnalysisRecord) (id : String) (payload : Json)
    (result : LLMResult) (now : Nat) : List AnalysisRecord :=
  { record_id := id, input_payload := payload, analysis_result := result,
    created_at := now } :: st.filter (fun r => !(r.record_id = id))

/-- Modelled from the spec: `get(record_id)` of §4.3 — the record for the
id, `none` if absent, never raises. -/
def get_analysis (st : List AnalysisRecord) (id : String) : Option AnalysisRecord :=
  st.find? (fun r => r.record_id = id)

/-- Modelled from the spec: `list_recent(limit)` of §4.3 — the records most
recent first, truncated to `limit` (the store representation keeps them in
that order). -/
def list_recent (st : List AnalysisRecord) (limit : Nat) : List AnalysisRecord :=
  st.take limit

/-- Number of live records the store holds for an id. -/
def countId (st : List AnalysisRecord) (id : String) : Nat :=
  (st.filter (fun r => r.record_id = id)).length

/-- A sequence of saves applied in order to a store, the clock ticking by
one per save. -/
def runOpsFrom (t : Nat) : List SaveOp → List AnalysisRecord → List AnalysisRecord
  | [], st => st
  | op :: ops, st =>
    runOpsFrom (t + 1) ops
      (save_analysis st op.record_id op.input_payload op.analysis_result t)

/-- A sequence of saves applied to the empty store. -/
def runOps (ops : List SaveOp) : List AnalysisRecord := runOpsFrom 0 ops []

/-- A fully populated remote-managed (SAP AI Core) configuration. -/
def cfgRemote : Config :=
  { provider := "sap_aicore", token_url := some "https://auth.example/oauth/token",
    client_id := some "cid", client_secret := some "secret",
    inference_url := some "https://ai.example/chat/completions",
    model_name := some "gpt-4o", local_url := none, max_tokens := 800, temperature := 0 }

/-- The remote configuration with the model name absent. -/
def cfgRemoteNoModel : Config := { cfgRemote with model_name := none }

/-- The remote configuration with the token endpoint URL absent. -/
def cfgRemoteNoToken : Config := { cfgRemote with token_url := none }

/-- A fully populated local-provider configuration. -/
def cfgLocal : Config :=
  { provider := "local", token_url := none, client_id := none, client_secret := none,
    inference_url := none, model_name := none,
    local_url := some "http://localhost:11434/api", max_tokens := 800, temperature := 0 }

/-- A token-endpoint body carrying an access token. -/
def tokenBodyOk : Json := Json.obj [("access_token", Json.str "tok")]

/-- A well-formed inference response body whose first choice's message
content is the plain text "hi". -/
def inferBodyOk : Json :=
  Json.obj [("choices",
    Json.arr [Json.obj [("message", Json.obj [("content", Json.str "hi")])]])]

/-- Oracle: token exchange and inference call both succeed. -/
def netOk : Network :=
  { tokenResp := .ok tokenBodyOk, inferResp := .ok inferBodyOk,
    localResp := .fail "unused" }

/-- Oracle: the token exchange raises. -/
def netTokenFail : Network :=
  { tokenResp := .fail "401 Unauthorized", inferResp := .ok inferBodyOk,
    localResp := .fail "unused" }

/-- Oracle: the token exchange succeeds, the inference call raises. -/
def netInferFail : Network :=
  { tokenResp := .ok tokenBodyOk, inferResp := .fail "boom",
    localResp := .fail "unused" }

/-- An inference response body whose `choices` key holds an empty list. -/
def inferBodyEmptyChoices : Json := Json.obj [("choices", Json.arr [])]

/-- Oracle: inference succeeds but returns an empty `choices` list. -/
def netEmptyChoices : Network :=
  { tokenResp := .ok tokenBodyOk, inferResp := .ok inferBodyEmptyChoices,
    localResp := .fail "unused" }

/-- Oracle: the local endpoint returns the given body. -/
def netLocalWith (j : Json) : Network :=
  { tokenResp := .fail "unused", inferResp := .fail "unused", localResp := .ok j }

/-- A local response body whose `result` field is a (truthy) number, not a
string. -/
def localBodyNum : Json := Json.obj [("result", Json.num 5)]

/-- The input separating the implementation from the spec's literal
stripping step: an opening-fence marker inside a JSON string literal, not
surrounding anything. -/
def cexFenceInside : String := "\x7b\"k```\n\": 1\x7d"

theorem tpj_norm (text : String) : try_parse_json text = amendedParse text := by
  by_cases h : text = ""
  · simp [try_parse_json, amendedParse, h]
  · simp only [try_parse_json, amendedParse, braceAttempt, h, if_false]
    split
    · split
      · rfl
      · rfl
    · rfl

theorem firstIdx_drop (c : Char) :
    ∀ (cs : List Char) (i : Nat), firstIdx c cs = some i → ∃ tl, cs.drop i = c :: tl := by
  intro cs
  induction cs with
  | nil => intro i h; simp [firstIdx] at h
  | cons x xs ih =>
    intro i h
    by_cases hx : x = c
    · rw [firstIdx, if_pos hx] at h
      cases h
      exact ⟨xs, by simp [hx]⟩
    · rw [firstIdx, if_neg hx] at h
      rcases hfi : firstIdx c xs with _ | j
      · rw [hfi] at h; cases h
      · rw [hfi] at h
        cases h
        rcases ih j hfi with ⟨tl, htl⟩
        exact ⟨tl, by simpa using htl⟩

theorem isWs_lbrace : isWs lbrace = false := rfl

theorem parseStep_val_lbrace :
    ∀ (fuel : Nat) (tl : List Char) (res : PRes) (rest : List Char),
      parseStep fuel .val (lbrace :: tl) = some (res, rest) →
      ∃ l, res = PRes.v (Json.obj l) := by
  intro fuel tl res rest h
  cases fuel with
  | zero => simp [parseStep] at h
  | succ fuel =>
    rw [parseStep] at h
    rw [show (lbrace :: tl).dropWhile isWs = lbrace :: tl from rfl] at h
    simp only [if_pos rfl, if_true] at h
    split at h
    · split at h
      · cases h; exact ⟨[], rfl⟩
      · split at h
        · cases h; exact ⟨_, rfl⟩
        · cases h
    · cases h

theorem braceAttempt_obj (s : List Char) (j : Json) (h : braceAttempt s = some j) :
    j.isObj = true := by
  unfold braceAttempt at h
  split at h
  · rename_i first last h1 h2
    split at h
    · rename_i hlt
      rcases firstIdx_drop lbrace s first h1 with ⟨tl, htl⟩
      rw [htl] at h
      rw [show last + 1 - first = (last - first) + 1 by omega] at h
      rw [List.take_succ_cons] at h
      unfold jsonLoadsL at h
      split at h
      · rename_i v rest hp
        rcases parseStep_val_lbrace _ _ _ _ hp with ⟨l, hl⟩
        injection hl with hv
        subst hv
        split at h
        · cases h; rfl
        · cases h
      · cases h
    · cases h
  · cases h

/-- C1 counterexample: on the input holding an opening-fence marker inside a
JSON string literal (not surrounding anything), the implementation strips it
anyway and parses the mutilated text to an object, while the spec's literal
algorithm (strip surrounding markers only) fails both parse attempts and
returns null — so the normalizer does not follow the spec's algorithm on
every input. -/
theorem c1_counterexample_interior_fence :
    try_parse_json cexFenceInside = some (Json.obj [("k", Json.num 1)]) ∧
    specParse cexFenceInside = none ∧
    ¬ (∀ text : String, try_parse_json text = specParse text) := by
  refine ⟨rfl, rfl, fun hall => ?_⟩
  have h := hall cexFenceInside
  rw [show try_parse_json cexFenceInside = some (Json.obj [("k", Json.num 1)]) from rfl,
    show specParse cexFenceInside = none from rfl] at h
  exact Option.noConfusion h

/-- C1 (amended): the normalizer follows the spec's ordered, first-success
algorithm with the stripping step as implemented — every occurrence of an
opening-fence marker (with optional case-insensitive language tag) is removed
anywhere in the text, and one trailing closing fence is removed; the fenced
example parses to the priority object and the prose-wrapped example to the
substring object between the first and last brace. -/
theorem c1_normalizer_ordered_algorithm :
    (∀ text : String, try_parse_json text = amendedParse text) ∧
    try_parse_json "```json\n\x7b\"priority\":\"High\"\x7d\n```"
      = some (Json.obj [("priority", Json.str "High")]) ∧
    try_parse_json "Here is the result: \x7b\"a\":1\x7d -- end"
      = some (Json.obj [("a", Json.num 1)]) :=
  ⟨tpj_norm, rfl, rfl⟩

/-- C6: the normalizer is total (never raises — both parse failures are
caught), returns null on the empty string and on unparseable prose, and in
general returns null exactly when the text is empty or both the substring
attempt and the whole-text attempt fail. -/
theorem c6_normalizer_total_null_on_failure :
    try_parse_json "" = none ∧
    try_parse_json "not json at all" = none ∧
    ∀ text : String, try_parse_json text = none ↔
      (text = "" ∨ (braceAttempt (strippedText text) = none ∧
        jsonLoadsL (strippedText text) = none)) := by
  refine ⟨rfl, rfl, fun text => ?_⟩
  rw [tpj_norm]
  unfold amendedParse
  by_cases h : text = ""
  · simp [h]
  · simp only [h, if_false]
    rcases hba : braceAttempt (strippedText text) with _ | v
    · simp [h]
    · simp [h]

/-- C7 counterexample: on the input "5" the normalizer's whole-text fallback
returns the JSON number 5, which is not a mapping (and not null) — refuting
"the result is either null or a mapping". -/
theorem c7_counterexample_number_result :
    try_parse_json "5" = some (Json.num 5) ∧ Json.isObj (Json.num 5) = false :=
  ⟨rfl, rfl⟩

/-- C7 (amended): a result produced by the first-brace-to-last-brace
substring attempt is always a mapping (the substring starts with an opening
brace, so a successful parse is an object), but the whole-text fallback may
return any JSON value — on "5" it returns a number. -/
theorem c7_brace_attempt_object_fallback_any :
    (∀ (s : List Char) (j : Json), braceAttempt s = some j → j.isObj = true) ∧
    try_parse_json "5" = some (Json.num 5) :=
  ⟨braceAttempt_obj, rfl⟩

/-- C2 counterexample: a token-exchange failure, an inference failure and a
missing-configuration failure all raise values of the one class `LLMError` —
the same `classOf` — so a caller cannot distinguish them by exception type,
refuting "distinguishable error kinds, not one shared kind". -/
theorem c2_counterexample_one_shared_class :
    (analyze cfgRemote netTokenFail "p").1
      = .error (.llmError "SAP AI Core authentication failed") ∧
    (analyze cfgRemote netInferFail "p").1 = .error (.llmError "boom") ∧
    (analyze cfgRemoteNoToken netOk "p").1
      = .error (.llmError "SAP AI Core configuration missing") ∧
    classOf (.llmError "SAP AI Core authentication failed") = classOf (.llmError "boom") ∧
    classOf (.llmError "boom") = classOf (.llmError "SAP AI Core configuration missing") :=
  ⟨rfl, rfl, rfl, rfl, rfl⟩

/-- C2 (amended): all three failure conditions raise the single exception
class `LLMError`; they are distinguishable only by message — the credential
exchange failure carries "SAP AI Core authentication failed", missing
configuration carries "SAP AI Core configuration missing", and an inference
failure carries the underlying cause text. -/
theorem c2_single_llmerror_class_distinct_messages :
    (∀ (cfg : Config) (net : Network) (p m : String),
      cfg.provider = "sap_aicore" → remoteConfigured cfg = true →
      net.tokenResp = .fail m →
      (analyze cfg net p).1 = .error (.llmError "SAP AI Core authentication failed")) ∧
    (∀ (cfg : Config) (net : Network) (p m : String) (tb tv : Json),
      cfg.provider = "sap_aicore" → remoteConfigured cfg = true →
      net.tokenResp = .ok tb → jget tb "access_token" = some tv →
      net.inferResp = .fail m →
      (analyze cfg net p).1 = .error (.llmError m)) ∧
    (∀ (cfg : Config) (net : Network) (p : String),
      cfg.provider = "sap_aicore" → remoteConfigured cfg = false →
      (analyze cfg net p).1 = .error (.llmError "SAP AI Core configuration missing")) ∧
    (∀ e : PyError, classOf e = "LLMError") := by
  refine ⟨?_, ?_, ?_, ?_⟩
  · intro cfg net p m hp hc htok
    simp [analyze, hp, call_sap_aicore, hc, get_access_token, htok]
  · intro cfg net p m tb tv hp hc htok hjget hinf
    simp [analyze, hp, call_sap_aicore, hc, get_access_token, htok, hjget, hinf]
  · intro cfg net p hp hc
    simp [analyze, hp, call_sap_aicore, hc]
  · intro e; cases e; rfl

/-- C3 counterexample: with the model name absent but the other four remote
parameters present, `analyze` performs both network calls and succeeds — it
does not fail before any network call — refuting the claim that the model
name is among the parameters checked. -/
theorem c3_counterexample_model_name_not_checked :
    cfgRemoteNoModel.model_name = none ∧
    (analyze cfgRemoteNoModel netOk "p").2
      = [NetCall.tokenPost cfgRemoteNoModel.token_url cfgRemoteNoModel.client_id
          cfgRemoteNoModel.client_secret,
         NetCall.inferPost cfgRemoteNoModel.inference_url none "p"] ∧
    isErr (analyze cfgRemoteNoModel netOk "p").1 = false :=
  ⟨rfl, rfl, rfl⟩

/-- C3 (amended): for the remote-managed kind the parameters checked before
any network call are token endpoint URL, client id, client secret and
inference endpoint URL (the model name is not checked); for the local kind,
the endpoint URL; in each case `analyze` fails with the class `LLMError`
(the code's one configuration-failure message) and an empty network trace. -/
theorem c3_config_checked_before_network :
    (∀ (cfg : Config) (net : Network) (p : String),
      cfg.provider = "sap_aicore" → remoteConfigured cfg = false →
      analyze cfg net p = (.error (.llmError "SAP AI Core configuration missing"), [])) ∧
    (∀ (cfg : Config) (net : Network) (p : String),
      (cfg.provider = "local" ∨ cfg.provider = "ollama" ∨ cfg.provider = "vllm") →
      truthyS cfg.local_url = false →
      analyze cfg net p = (.error (.llmError "LOCAL_LLM_URL not set"), [])) := by
  constructor
  · intro cfg net p hp hc
    simp [analyze, hp, call_sap_aicore, hc]
  · intro cfg net p hp hc
    have hps : ¬ cfg.provider = "sap_aicore" := by
      rcases hp with h | h | h <;> rw [h] <;> decide
    simp [analyze, hps, hp, call_local, hc]

theorem lookupF_nil (k : String) : lookupF k [] = none := rfl

/-- C4 counterexample: when the inference call succeeds with a body whose
`choices` key holds an empty list, `analyze` raises (the indexing `[0]`
raises and the handler re-raises `LLMError`) instead of degrading to an
empty text result — refuting "including the case of an empty choices
array — analyze does not raise". -/
theorem c4_counterexample_empty_choices_raises :
    netEmptyChoices.inferResp = .ok (Json.obj [("choices", Json.arr [])]) ∧
    isErr (analyze cfgRemote netEmptyChoices "p").1 = true :=
  ⟨rfl, rfl⟩

/-- C4 (amended): a successful inference response lacking the
choices/message/content structure by a *missing key* is not fatal — the
`.get` defaults degrade it to an empty text result that flows through
normalization and is returned — but a `choices` key holding an empty array
makes `analyze` raise `LLMError`. -/
theorem c4_missing_keys_degrade_empty_choices_raise :
    (∀ (cfg : Config) (net : Network) (p : String) (tb tv : Json)
        (fs : List (String × Json)),
      cfg.provider = "sap_aicore" → remoteConfigured cfg = true →
      net.tokenResp = .ok tb → jget tb "access_token" = some tv →
      net.inferResp = .ok (Json.obj fs) → lookupF "choices" fs = none →
      (analyze cfg net p).1
        = .ok { text := Json.str "", json := none, raw := Json.obj fs }) ∧
    (∀ (cfg : Config) (net : Network) (p : String) (tb tv : Json)
        (fs cf : List (String × Json)) (cs : List Json),
      cfg.provider = "sap_aicore" → remoteConfigured cfg = true →
      net.tokenResp = .ok tb → jget tb "access_token" = some tv →
      net.inferResp = .ok (Json.obj fs) →
      lookupF "choices" fs = some (Json.arr (Json.obj cf :: cs)) →
      lookupF "message" cf = none →
      (analyze cfg net p).1
        = .ok { text := Json.str "", json := none, raw := Json.obj fs }) ∧
    (∀ (cfg : Config) (net : Network) (p : String) (tb tv : Json)
        (fs cf mf : List (String × Json)) (cs : List Json),
      cfg.provider = "sap_aicore" → remoteConfigured cfg = true →
      net.tokenResp = .ok tb → jget tb "access_token" = some tv →
      net.inferResp = .ok (Json.obj fs) →
      lookupF "choices" fs = some (Json.arr (Json.obj cf :: cs)) →
      lookupF "message" cf = some (Json.obj mf) → lookupF "content" mf = none →
      (analyze cfg net p).1
        = .ok { text := Json.str "", json := none, raw := Json.obj fs }) ∧
    (∀ (cfg : Config) (net : Network) (p : String) (tb tv : Json)
        (fs : List (String × Json)),
      cfg.provider = "sap_aicore" → remoteConfigured cfg = true →
      net.tokenResp = .ok tb → jget tb "access_token" = some tv →
      net.inferResp = .ok (Json.obj fs) →
      lookupF "choices" fs = some (Json.arr []) →
      isErr (analyze cfg net p).1 = true) := by
  refine ⟨?_, ?_, ?_, ?_⟩
  · intro cfg net p tb tv fs hp hc htok hjget hinf hch
    simp [analyze, hp, call_sap_aicore, hc, get_access_token, htok, hjget, hinf,
      extract_text, hch, lookupF_nil, try_parse_json_py, jsonTruthy]
  · intro cfg net p tb tv fs cf cs hp hc htok hjget hinf hch hmsg
    simp [analyze, hp, call_sap_aicore, hc, get_access_token, htok, hjget, hinf,
      extract_text, hch, hmsg, lookupF_nil, try_parse_json_py, jsonTruthy]
  · intro cfg net p tb tv fs cf mf cs hp hc htok hjget hinf hch hmsg hcont
    simp [analyze, hp, call_sap_aicore, hc, get_access_token, htok, hjget, hinf,
      extract_text, hch, hmsg, hcont, try_parse_json_py, jsonTruthy]
  · intro cfg net p tb tv fs hp hc htok hjget hinf hch
    simp [analyze, hp, call_sap_aicore, hc, get_access_token, htok, hjget, hinf,
      extract_text, hch, isErr]

/-- C5 counterexample: a local response body whose `result` field is the
truthy number 5 makes the candidate chain select a non-string; the
normalizer's `text.strip()` then raises and `analyze` re-raises `LLMError` —
so the text component is not "always a string, never absent". -/
theorem c5_counterexample_nonstring_result_field :
    local_text localBodyNum = .ok (Json.num 5) ∧
    Json.isObj (Json.num 5) = false ∧
    isErr (analyze cfgLocal (netLocalWith localBodyNum) "p").1 = true :=
  ⟨rfl, rfl, rfl⟩

/-- C5 (amended): for a JSON-object local response body the selected text
value is the first truthy field among result/text/output, else the
serialization of the whole body (a string); when the selected value is a
string, `analyze` returns it as the text component with its normalization;
when it is truthy but not a string, `analyze` raises `LLMError` instead of
returning. -/
theorem c5_local_text_first_truthy_or_dump :
    (∀ (fs : List (String × Json)),
      optTruthy (lookupF "result" fs) = false →
      optTruthy (lookupF "text" fs) = false →
      optTruthy (lookupF "output" fs) = false →
      local_text (Json.obj fs) = .ok (Json.str (dumps (Json.obj fs)))) ∧
    (∀ (cfg : Config) (net : Network) (p : String) (fs : List (String × Json)) (s : String),
      (cfg.provider = "local" ∨ cfg.provider = "ollama" ∨ cfg.provider = "vllm") →
      truthyS cfg.local_url = true →
      net.localResp = .ok (Json.obj fs) →
      local_text (Json.obj fs) = .ok (Json.str s) →
      (analyze cfg net p).1
        = .ok { text := Json.str s, json := try_parse_json s, raw := Json.obj fs }) ∧
    (∀ (cfg : Config) (net : Network) (p : String) (fs : List (String × Json)) (v : Json),
      (cfg.provider = "local" ∨ cfg.provider = "ollama" ∨ cfg.provider = "vllm") →
      truthyS cfg.local_url = true →
      net.localResp = .ok (Json.obj fs) →
      local_text (Json.obj fs) = .ok v → jsonTruthy v = true → (∀ s, ¬ v = Json.str s) →
      isErr (analyze cfg net p).1 = true) := by
  refine ⟨?_, ?_, ?_⟩
  · intro fs h1 h2 h3
    unfold local_text
    rcases hr : lookupF "result" fs with _ | vr <;> rw [hr] at h1 <;>
      rcases ht : lookupF "text" fs with _ | vt <;> rw [ht] at h2 <;>
      rcases ho : lookupF "output" fs with _ | vo <;> rw [ho] at h3 <;>
      simp [jget, hr, ht, ho, orTruthy, optTruthy] at h1 h2 h3 ⊢ <;>
      simp [h1, h2, h3]
  · intro cfg net p fs s hp hcl hresp hsel
    have hps : ¬ cfg.provider = "sap_aicore" := by
      rcases hp with h | h | h <;> rw [h] <;> decide
    by_cases hs : s = ""
    · subst hs
      simp [analyze, hps, hp, call_local, hcl, hresp, hsel, try_parse_json_py,
        jsonTruthy, try_parse_json]
    · simp [analyze, hps, hp, call_local, hcl, hresp, hsel, try_parse_json_py,
        jsonTruthy, hs]
  · intro cfg net p fs v hp hcl hresp hsel htr hnstr
    have hps : ¬ cfg.provider = "sap_aicore" := by
      rcases hp with h | h | h <;> rw [h] <;> decide
    have hepy : try_parse_json_py v = .error "AttributeError: strip" := by
      unfold try_parse_json_py
      rw [htr, if_pos rfl]
      cases v with
      | str s => exact absurd rfl (hnstr s)
      | null => rfl
      | bool b => rfl
      | num n => rfl
      | arr xs => rfl
      | obj fs2 => rfl
    simp [analyze, hps, hp, call_local, hcl, hresp, hsel, hepy, isErr]

/-- C8: for a fully configured remote-managed provider and a non-empty
prompt, one invocation of `analyze` whose credential exchange succeeds
performs exactly one token post followed by exactly one inference post —
and since the client keeps no state, every invocation repeats the fresh
credential exchange (no token caching). -/
theorem c8_one_token_then_one_inference :
    ∀ (cfg : Config) (net : Network) (p : String) (tb tv : Json),
      cfg.provider = "sap_aicore" → remoteConfigured cfg = true → ¬ p = "" →
      net.tokenResp = .ok tb → jget tb "access_token" = some tv →
      (analyze cfg net p).2
        = [NetCall.tokenPost cfg.token_url cfg.client_id cfg.client_secret,
           NetCall.inferPost cfg.inference_url cfg.model_name p] := by
  intro cfg net p tb tv hp hc hpne htok hjget
  simp only [analyze, hp, if_pos rfl, if_true, call_sap_aicore, hc,
    Bool.not_true, Bool.false_eq_true, if_false, get_access_token, htok, hjget]
  cases hi : net.inferResp with
  | fail m => simp [hi]
  | ok raw =>
    cases he : extract_text raw with
    | error m => simp [hi, he]
    | ok text =>
      cases hpj : try_parse_json_py text with
      | error m => simp [hi, he, hpj]
      | ok parsed => simp [hi, he, hpj]

/-- C8 witness: the concrete fully configured remote client with a working
oracle performs the token post then the inference post. -/
theorem c8_witness :
    (analyze cfgRemote netOk "hello").2
      = [NetCall.tokenPost cfgRemote.token_url cfgRemote.client_id cfgRemote.client_secret,
         NetCall.inferPost cfgRemote.inference_url cfgRemote.model_name "hello"] :=
  c8_one_token_then_one_inference cfgRemote netOk "hello" tokenBodyOk (Json.str "tok")
    rfl rfl (by decide) rfl rfl

/-- C10: every successful `analyze` result is the record with exactly the
fields `text`, `json` and `raw` (the `LLMResult` structure, the literal dict
of lines 114 and 133), where `json` is the normalizer applied to `text`, and
`raw` is the decoded response body of the provider that was called. -/
theorem c10_result_shape :
    ∀ (cfg : Config) (net : Network) (p : String) (r : LLMResult),
      (analyze cfg net p).1 = .ok r →
      try_parse_json_py r.text = .ok r.json ∧
      (cfg.provider = "sap_aicore" → ∃ b, net.inferResp = .ok b ∧ r.raw = b) ∧
      ((cfg.provider = "local" ∨ cfg.provider = "ollama" ∨ cfg.provider = "vllm") →
        ∃ b, net.localResp = .ok b ∧ r.raw = b) := by
  intro cfg net p r h
  unfold analyze at h
  by_cases hp : cfg.provider = "sap_aicore"
  · rw [if_pos hp] at h
    unfold call_sap_aicore at h
    cases hc : remoteConfigured cfg with
    | false => rw [hc] at h; simp at h
    | true =>
      rw [hc] at h
      simp only [Bool.not_true, Bool.false_eq_true, if_false] at h
      rcases hga : get_access_token cfg net with ⟨tok, tr⟩
      rw [hga] at h
      cases tok with
      | error e => simp at h
      | ok tv =>
        simp only [] at h
        cases hi : net.inferResp with
        | fail m => rw [hi] at h; simp at h
        | ok raw =>
          rw [hi] at h
          simp only [] at h
          cases he : extract_text raw with
          | error m => rw [he] at h; simp at h
          | ok text =>
            rw [he] at h
            simp only [] at h
            cases hpj : try_parse_json_py text with
            | error m => rw [hpj] at h; simp at h
            | ok parsed =>
              rw [hpj] at h
              simp only [] at h
              injection h with h2
              subst h2
              refine ⟨hpj, fun _ => ⟨raw, rfl, rfl⟩, fun hl => ?_⟩
              exfalso
              rcases hl with h1 | h1 | h1 <;> rw [hp] at h1 <;> exact absurd h1 (by decide)
  · rw [if_neg hp] at h
    by_cases hl : cfg.provider = "local" ∨ cfg.provider = "ollama" ∨ cfg.provider = "vllm"
    · rw [if_pos hl] at h
      unfold call_local at h
      cases hcl : truthyS cfg.local_url with
      | false => rw [hcl] at h; simp at h
      | true =>
        rw [hcl] at h
        simp only [Bool.not_true, Bool.false_eq_true, if_false] at h
        cases hlr : net.localResp with
        | fail m => rw [hlr] at h; simp at h
        | ok j =>
          rw [hlr] at h
          simp only [] at h
          cases hlt : local_text j with
          | error m => rw [hlt] at h; simp at h
          | ok text =>
            rw [hlt] at h
            simp only [] at h
            cases hpj : try_parse_json_py text with
            | error m => rw [hpj] at h; simp at h
            | ok parsed =>
              rw [hpj] at h
              simp only [] at h
              injection h with h2
              subst h2
              exact ⟨hpj, fun hsap => absurd hsap hp, fun _ => ⟨j, rfl, rfl⟩⟩
    · rw [if_neg hl] at h
      simp at h

/-- C10 witness: the concrete successful remote call returns the record with
text "hi", the normalizer's null, and the response body as `raw`. -/
theorem c10_witness :
    try_parse_json_py (Json.str "hi") = Except.ok (none : Option Json) ∧
    (cfgRemote.provider = "sap_aicore" →
      ∃ b, netOk.inferResp = HttpOutcome.ok b ∧ inferBodyOk = b) ∧
    ((cfgRemote.provider = "local" ∨ cfgRemote.provider = "ollama" ∨
        cfgRemote.provider = "vllm") →
      ∃ b, netOk.localResp = HttpOutcome.ok b ∧ inferBodyOk = b) :=
  c10_result_shape cfgRemote netOk "p"
    { text := Json.str "hi", json := none, raw := inferBodyOk } rfl

theorem countId_save_self (st : List AnalysisRecord) (id : String) (p : Json)
    (r : LLMResult) (t : Nat) : countId (save_analysis st id p r t) id = 1 := by
  unfold countId save_analysis
  have hfil : ∀ l : List AnalysisRecord,
      (l.filter (fun rec => !(rec.record_id = id))).filter (fun rec => rec.record_id = id)
        = [] := by
    intro l
    induction l with
    | nil => rfl
    | cons x xs ih => by_cases hx : x.record_id = id <;> simp [List.filter_cons, hx, ih]
  simp [List.filter_cons, hfil]

theorem countId_save_other (st : List AnalysisRecord) (id id' : String) (p : Json)
    (r : LLMResult) (t : Nat) (h : ¬ id = id') :
    countId (save_analysis st id p r t) id' = countId st id' := by
  unfold countId save_analysis
  rw [List.filter_cons_of_neg (by simpa using h)]
  rw [List.filter_filter]
  congr 1
  apply List.filter_congr
  intro a _
  by_cases hh : a.record_id = id'
  · simp [hh]
    exact fun hk => h hk.symm
  · simp [hh]

theorem get_save (st : List AnalysisRecord) (id : String) (p : Json)
    (r : LLMResult) (t : Nat) :
    get_analysis (save_analysis st id p r t) id
      = some { record_id := id, input_payload := p, analysis_result := r,
               created_at := t } := by
  unfold get_analysis save_analysis
  rw [List.find?_cons_of_pos]
  simp

theorem countId_runOpsFrom (id : String) :
    ∀ (ops : List SaveOp) (t : Nat) (st : List AnalysisRecord),
      countId (runOpsFrom t ops st) id
        = if id ∈ ops.map SaveOp.record_id then 1 else countId st id := by
  intro ops
  induction ops with
  | nil => intro t st; simp [runOpsFrom]
  | cons op ops ih =>
    intro t st
    rw [runOpsFrom, ih]
    by_cases hmem : id ∈ ops.map SaveOp.record_id
    · rw [if_pos hmem, if_pos (by simp [hmem])]
    · rw [if_neg hmem]
      by_cases hop : id = op.record_id
      · rw [if_pos (by simp [hop])]
        rw [hop, countId_save_self]
      · rw [if_neg (by simp [hop, hmem])]
        exact countId_save_other st op.record_id id op.input_payload
          op.analysis_result t (fun hh => hop hh.symm)

theorem nodup_keys_save (st : List AnalysisRecord) (id : String) (p : Json)
    (r : LLMResult) (t : Nat) (h : (st.map AnalysisRecord.record_id).Nodup) :
    ((save_analysis st id p r t).map AnalysisRecord.record_id).Nodup := by
  unfold save_analysis
  rw [List.map_cons]
  refine List.nodup_cons.mpr ⟨?_, ?_⟩
  · intro hmem
    rcases List.mem_map.mp hmem with ⟨rec, hrec, hid⟩
    have hkeep := List.of_mem_filter hrec
    simp [hid] at hkeep
  · exact List.Nodup.sublist ((List.filter_sublist st).map AnalysisRecord.record_id) h

theorem nodup_keys_runOpsFrom :
    ∀ (ops : List SaveOp) (t : Nat) (st : List AnalysisRecord),
      (st.map AnalysisRecord.record_id).Nodup →
      ((runOpsFrom t ops st).map AnalysisRecord.record_id).Nodup := by
  intro ops
  induction ops with
  | nil => intro t st h; simpa [runOpsFrom] using h
  | cons op ops ih =>
    intro t st h
    rw [runOpsFrom]
    exact ih _ _ (nodup_keys_save st op.record_id op.input_payload op.analysis_result t h)

/-- C9: over every sequence of saves from the empty store, the store holds
exactly one live record per saved id (and none for an unsaved id);
re-saving an id replaces the record, whose `created_at` is the time of the
latest save; and `list_recent` output never holds a duplicate id. Spec-modelled:
`app/storage.py` is not among the staged sources. -/
theorem c9_store_one_live_record_per_id :
    (∀ (ops : List SaveOp) (id : String),
      countId (runOps ops) id = if id ∈ ops.map SaveOp.record_id then 1 else 0) ∧
    (∀ (st : List AnalysisRecord) (id : String) (p : Json) (r : LLMResult) (t : Nat),
      get_analysis (save_analysis st id p r t) id
        = some { record_id := id, input_payload := p, analysis_result := r,
                 created_at := t }) ∧
    (∀ (ops : List SaveOp) (limit : Nat),
      ((list_recent (runOps ops) limit).map AnalysisRecord.record_id).Nodup) := by
  refine ⟨?_, get_save, ?_⟩
  · intro ops id
    rw [runOps, countId_runOpsFrom]
    rfl
  · intro ops limit
    have hnd : ((runOps ops).map AnalysisRecord.record_id).Nodup :=
      nodup_keys_runOpsFrom ops 0 [] (by simp)
    unfold list_recent
    rw [List.map_take]
    exact List.Nodup.sublist (List.take_sublist _ _) hnd
